import Mathlib

/-!
Verification development for the obsidian-chat-stream conversation builder.

The TypeScript source is shallowly embedded: JS strings are lists of UTF-16
code units (`List Nat`), token sequences are `List Nat`, the tokenizer is an
abstract `Encoding` record (the code uses the external js-tiktoken library),
and the stateful ancestor walk of `buildMessages` is explicit state passing.
-/

namespace ChatStream

/-- Code units of a Lean string literal, used to write JS string constants. -/
def strCodes (s : String) : List Nat :=
  s.toList.map Char.toNat

/-- Whitespace test used by the model of String.prototype.trim
(ASCII whitespace: space and the control characters 9-13). -/
def isWs (c : Nat) : Bool :=
  c = 32 || (9 ≤ c && c ≤ 13)

/-- Model of trimming leading whitespace. -/
def trimL (l : List Nat) : List Nat :=
  l.dropWhile isWs

/-- Model of trimming trailing whitespace. -/
def trimR (l : List Nat) : List Nat :=
  (l.reverse.dropWhile isWs).reverse

/-- Model of String.prototype.trim: drop whitespace at both ends. -/
def trim (l : List Nat) : List Nat :=
  trimR (trimL l)

/-- Model of String.prototype.startsWith (and of testing a list prefix). -/
def startsWith (pat l : List Nat) : Bool :=
  pat.isPrefixOf l

/-- Model of Array.prototype.slice(0, e) / String.prototype.slice(0, e):
a negative end index counts from the end of the list, clamped at 0. -/
def jsSliceZero (l : List Nat) (e : Int) : List Nat :=
  if e < 0 then l.take (l.length - e.natAbs) else l.take e.toNat

/-- The literal marker for system-prompt nodes (noteGenerator.ts line 91). -/
def sysMarker : List Nat := strCodes "SYSTEM PROMPT"

/-- The image sentinel prefix (noteGenerator.ts line 136). -/
def imageSentinel : List Nat := strCodes "data:image"

/-- Abstract tokenizer, standing for the js-tiktoken encoding object. -/
structure Encoding where
  encode : List Nat → List Nat
  decode : List Nat → List Nat

/-- The concrete one-code-unit-per-token encoding, used as a witness
instance of the tokenizer contract. -/
def charEncoding : Encoding :=
  { encode := fun t => t, decode := fun t => t }

/-- Tokenizer contract (spec section 4.1): decoding a prefix slice of a
text's token sequence yields a character boundary of that text, and slicing
the text there re-encodes to exactly that token prefix. -/
def PrefixStable (enc : Encoding) : Prop :=
  ∀ t k, enc.encode (t.take ((enc.decode ((enc.encode t).take k)).length)) = (enc.encode t).take k

/-- Message roles (chatGPT-types.ts). -/
inductive Role where
  | system
  | user
  | assistant
deriving DecidableEq, Repr

/-- Message content: a plain string, or the image payload array built for
nodes whose content starts with the image sentinel (noteGenerator.ts 137-143). -/
inductive MsgContent where
  | text (s : List Nat)
  | image (url : List Nat)
deriving DecidableEq, Repr

/-- A chat completion request message. -/
structure Message where
  role : Role
  content : MsgContent
deriving DecidableEq, Repr

/-- A canvas node as the builder sees it: the result of readNodeContent
(undefined for unreadable nodes) and the chat_role field of its data. -/
structure CanvasNode where
  content : Option (List Nat)
  chat_role : Option (List Nat)
deriving DecidableEq, Repr

/-- The settings fields consumed by the conversation builder. -/
structure ChatStreamSettings where
  systemPrompt : List Nat
  maxInputTokens : Nat
  maxDepth : Nat
deriving DecidableEq, Repr

/-- getTokenLimit (noteGenerator.ts 347-358): the configured cap when
positive, else the default 8192. -/
def getTokenLimit (settings : ChatStreamSettings) : Nat :=
  if 0 < settings.maxInputTokens then settings.maxInputTokens else 8192

/-- The node text the visitor works with: readNodeContent(node)?.trim() || ''. -/
def trimmedText (n : CanvasNode) : List Nat :=
  trim (n.content.getD [])

/-- isSystemPromptNode (noteGenerator.ts 90-91). -/
def isSystemPromptNode (t : List Nat) : Bool :=
  startsWith sysMarker (trim t)

/-- The emitted role: assistant when the node data says assistant, else user
(noteGenerator.ts 171-172). -/
def roleOf (n : CanvasNode) : Role :=
  if n.chat_role = some (strCodes "assistant") then Role.assistant else Role.user

/-- Mutable state of the buildMessages closure: the message list built by
unshift, and the running token count. -/
structure BuildState where
  messages : List Message
  tokenCount : Nat
deriving DecidableEq, Repr

/-- Modelled from the spec: the graph walker of canvasUtil.ts (a file of this
repository that is not under src/), specialized to a single-parent ancestor
chain given in walk order (start node first). The visitor is applied to each
node with its depth; a false result stops the walk (spec section 4.2). -/
def walkChain {σ : Type} (visit : σ → CanvasNode → Nat → σ × Bool) :
    σ → List CanvasNode → Nat → σ
  | s, [], _ => s
  | s, n :: rest, d =>
    let r := visit s n d
    if r.2 then walkChain visit r.1 rest (d + 1) else r.1

/-- The visitor of getSystemPrompt (noteGenerator.ts 96-104): remember the
first node whose content is nonempty and system-prompt-marked, then stop. -/
def spVisitor (found : Option (List Nat)) (n : CanvasNode) (_ : Nat) :
    Option (List Nat) × Bool :=
  match n.content with
  | some t => if t ≠ [] ∧ isSystemPromptNode t then (some t, false) else (found, true)
  | none => (found, true)

/-- getSystemPrompt (noteGenerator.ts 93-107): walk the chain for a marked
node; fall back to the configured default (foundPrompt || settings.systemPrompt). -/
def getSystemPrompt (settings : ChatStreamSettings) (chain : List CanvasNode) : List Nat :=
  match walkChain spVisitor none chain 0 with
  | some t => if t = [] then settings.systemPrompt else t
  | none => settings.systemPrompt

/-- Declarative characterization following the spec words (section 4.3): the
first chain node, in walk order, whose nonempty content is system-prompt-marked. -/
def firstMarkedPrompt (chain : List CanvasNode) : Option (List Nat) :=
  chain.findSome? fun n =>
    match n.content with
    | some t => if t ≠ [] ∧ isSystemPromptNode t then some t else none
    | none => none

/-- The visit closure of buildMessages (noteGenerator.ts 122-181), one step:
depth gate, empty filter, image emission, system-prompt filter, token
accounting with the truncation branch. Returns the new state and the
shouldContinue flag. -/
def visitNode (enc : Encoding) (settings : ChatStreamSettings)
    (st : BuildState) (node : CanvasNode) (depth : Nat) : BuildState × Bool :=
  if settings.maxDepth ≠ 0 ∧ settings.maxDepth < depth then (st, false)
  else
    let nodeText := trimmedText node
    let inputLimit := getTokenLimit settings
    if nodeText = [] then (st, true)
    else if startsWith imageSentinel nodeText then
      ({ st with messages := ⟨Role.user, MsgContent.image nodeText⟩ :: st.messages }, true)
    else if isSystemPromptNode nodeText then (st, true)
    else
      let nodeTokens := enc.encode nodeText
      if inputLimit < st.tokenCount + nodeTokens.length then
        let keepTokens := jsSliceZero nodeTokens ((inputLimit : Int) - (st.tokenCount : Int) - 1)
        let truncateTextTo := (enc.decode keepTokens).length
        let newText := nodeText.take truncateTextTo
        (⟨⟨roleOf node, MsgContent.text newText⟩ :: st.messages,
          st.tokenCount + keepTokens.length⟩, false)
      else
        (⟨⟨roleOf node, MsgContent.text nodeText⟩ :: st.messages,
          st.tokenCount + nodeTokens.length⟩, true)

/-- The token reserve taken before the walk (noteGenerator.ts 117-120): the
encoded length of the resolved system prompt when it is nonempty. -/
def initialTokenCount (enc : Encoding) (settings : ChatStreamSettings)
    (chain : List CanvasNode) : Nat :=
  let systemPrompt := getSystemPrompt settings chain
  if systemPrompt ≠ [] then (enc.encode systemPrompt).length else 0

/-- buildMessages (noteGenerator.ts 109-208) over an ancestor chain in walk
order (leaf first): resolve the system prompt, reserve its cost, run the
visit walk, then prepend the system message and append the action prompt
when messages were produced, else return the empty result. -/
def buildMessages (enc : Encoding) (settings : ChatStreamSettings)
    (chain : List CanvasNode) (actionPrompt : Option (List Nat)) : List Message × Nat :=
  let systemPrompt := getSystemPrompt settings chain
  let st := walkChain (visitNode enc settings) ⟨[], initialTokenCount enc settings chain⟩ chain 0
  if st.messages ≠ [] then
    let withSys :=
      if systemPrompt ≠ [] then ⟨Role.system, MsgContent.text systemPrompt⟩ :: st.messages
      else st.messages
    match actionPrompt with
    | some ap =>
      if ap ≠ [] then (withSys ++ [⟨Role.user, MsgContent.text ap⟩],
        st.tokenCount + (enc.encode ap).length)
      else (withSys, st.tokenCount)
    | none => (withSys, st.tokenCount)
  else ([], 0)

/-- The state after the walk has processed the first i chain nodes. -/
def stateAt (enc : Encoding) (settings : ChatStreamSettings)
    (st0 : BuildState) (chain : List CanvasNode) (i : Nat) : BuildState :=
  walkChain (visitNode enc settings) st0 (chain.take i) 0

/-- The whole (untruncated) message a node contributes, none when the node
is filtered out (empty, or system-prompt-marked). -/
def nodeMessage (n : CanvasNode) : Option Message :=
  let t := trimmedText n
  if t = [] then none
  else if startsWith imageSentinel t then some ⟨Role.user, MsgContent.image t⟩
  else if isSystemPromptNode t then none
  else some ⟨roleOf n, MsgContent.text t⟩

/-- Whether a node reaches the tokenization branch of the visitor. -/
def isTextNode (n : CanvasNode) : Bool :=
  !(trimmedText n).isEmpty && !startsWith imageSentinel (trimmedText n)
    && !isSystemPromptNode (trimmedText n)

/-- The token contribution a node would make if kept whole. -/
def textTokens (enc : Encoding) (n : CanvasNode) : Nat :=
  if isTextNode n then (enc.encode (trimmedText n)).length else 0

/-- Total whole-text token count of a chain. -/
def chainTokens (enc : Encoding) (chain : List CanvasNode) : Nat :=
  (chain.map (textTokens enc)).sum

/-- The truncated text the overflow branch produces from a state and node
(noteGenerator.ts 158-163). -/
def truncatedText (enc : Encoding) (settings : ChatStreamSettings)
    (st : BuildState) (n : CanvasNode) : List Nat :=
  (trimmedText n).take
    ((enc.decode (jsSliceZero (enc.encode (trimmedText n))
      ((getTokenLimit settings : Int) - (st.tokenCount : Int) - 1))).length)

/-- Dynamic JSON values, the model of parsed provider response bodies and of
message content sent over the wire. Numbers carry their literal text. -/
inductive JVal where
  | null
  | boolean (b : Bool)
  | num (lit : List Nat)
  | str (s : List Nat)
  | arr (items : List JVal)
  | obj (fields : List (List Nat × JVal))

/-- First matching field of a JS object, model of property lookup. -/
def lookupField : List (List Nat × JVal) → List Nat → Option JVal
  | [], _ => none
  | (k, v) :: rest, key => if k = key then some v else lookupField rest key

/-- Model of property access v[key]: a field of an object, undefined (none)
elsewhere. The callers below only apply it where JS would not throw. -/
def jGet (v : JVal) (key : List Nat) : Option JVal :=
  match v with
  | JVal.obj fields => lookupField fields key
  | _ => none

/-- JS truthiness of a value (the num case is a model simplification:
truthy unless the literal is "0"). -/
def truthy : JVal → Bool
  | JVal.null => false
  | JVal.boolean b => b
  | JVal.num lit => !(lit = strCodes "0")
  | JVal.str s => !s.isEmpty
  | JVal.arr _ => true
  | JVal.obj _ => true

/-- JS truthiness of a possibly-undefined value. -/
def jTruthy : Option JVal → Bool
  | none => false
  | some v => truthy v

/-- The string an element contributes to Array.prototype.join: null and
undefined become empty, strings pass through, others are stringified
(arrays and objects coarsely, enough for the shapes at hand). -/
def jToJoin : JVal → List Nat
  | JVal.null => []
  | JVal.boolean true => strCodes "true"
  | JVal.boolean false => strCodes "false"
  | JVal.num lit => lit
  | JVal.str s => s
  | JVal.arr _ => []
  | JVal.obj _ => strCodes "[object Object]"

/-- Whether a value is the JS null (whose property reads throw). -/
def isNullV : JVal → Bool
  | JVal.null => true
  | JVal.boolean _ => false
  | JVal.num _ => false
  | JVal.str _ => false
  | JVal.arr _ => false
  | JVal.obj _ => false

/-- The item.type === "output_text" test of the response parser. -/
def keepOutput (item : JVal) : Bool :=
  match jGet item (strCodes "type") with
  | some (JVal.str s) => s = strCodes "output_text"
  | _ => false

/-- The filter step items.filter(item.type === "output_text") of the
response parser: reading item.type throws a TypeError on a null item
(modelled as Except.error). -/
def filterOutputTexts : List JVal → Except Unit (List JVal)
  | [] => Except.ok []
  | item :: rest =>
    if isNullV item then Except.error ()
    else do
      let tail ← filterOutputTexts rest
      Except.ok (if keepOutput item then item :: tail else tail)

/-- The map-and-join step .map(item.text).join('') over the kept items:
a missing text field joins as the empty string. -/
def joinTexts (items : List JVal) : List Nat :=
  items.foldr (fun i acc =>
    (match jGet i (strCodes "text") with
     | some v => jToJoin v
     | none => []) ++ acc) []

/-- The fall-through of the response parser (chatGPT.ts 96-110): the nested
output-message shape, ending at the output_text helper field. An Except.error
models a thrown TypeError. -/
def parseFallback (res : JVal) : Except Unit (Option JVal) :=
  if jTruthy (jGet res (strCodes "output")) then
    let fm : Option JVal :=
      match jGet res (strCodes "output") with
      | some (JVal.arr (m :: _)) => some m
      | _ => none
    match fm with
    | some m =>
      if truthy m then
        match jGet m (strCodes "content") with
        | some c =>
          if truthy c then
            match c with
            | JVal.arr citems => do
              let kept ← filterOutputTexts citems
              let t := joinTexts kept
              pure (if t.isEmpty then none else some (JVal.str t))
            | _ => Except.error ()
          else pure (jGet res (strCodes "output_text"))
        | none => pure (jGet res (strCodes "output_text"))
      else pure (jGet res (strCodes "output_text"))
    | none => pure (jGet res (strCodes "output_text"))
  else pure (jGet res (strCodes "output_text"))

/-- Response parsing of getChatGPTCompletion (chatGPT.ts 87-110): the three
sniffed shapes in order, falling through to the output_text helper field.
An Except.error models a thrown TypeError (calling .filter on a non-array,
or reading .type of a null item), which the surrounding try/catch rethrows. -/
def parseResponse (res : JVal) : Except Unit (Option JVal) :=
  match jGet res (strCodes "content") with
  | some (JVal.arr items) => do
    let kept ← filterOutputTexts items
    pure (some (JVal.str (joinTexts kept)))
  | _ => parseFallback res

/-- Does the body carry an inline content array (first accepted shape)? -/
def hasContentArr (res : JVal) : Bool :=
  match jGet res (strCodes "content") with
  | some (JVal.arr _) => true
  | _ => false

/-- Does the body carry a nested output-message array whose first message
holds a content array (second accepted shape)? -/
def hasNestedOutput (res : JVal) : Bool :=
  match jGet res (strCodes "output") with
  | some (JVal.arr (m :: _)) =>
    (match jGet m (strCodes "content") with
     | some (JVal.arr _) => true
     | _ => false)
  | _ => false

/-- Does the body carry the flat output_text helper field (third shape)? -/
def hasOutputText (res : JVal) : Bool :=
  (jGet res (strCodes "output_text")).isSome

/-- A body matching one of the three reply shapes the client accepts. -/
def matchesShape (res : JVal) : Bool :=
  hasContentArr res || hasNestedOutput res || hasOutputText res

/-- Hexadecimal digit, as used by JSON.stringify control escapes. -/
def hexDigit (n : Nat) : Nat :=
  if n < 10 then 48 + n else 87 + n

/-- JSON string escaping of one code unit, model of JSON.stringify. -/
def jsonEscapeChar (c : Nat) : List Nat :=
  if c = 34 then [92, 34]
  else if c = 92 then [92, 92]
  else if c = 8 then [92, 98]
  else if c = 9 then [92, 116]
  else if c = 10 then [92, 110]
  else if c = 12 then [92, 102]
  else if c = 13 then [92, 114]
  else if c < 32 then [92, 117, 48, 48, hexDigit (c / 16), hexDigit (c % 16)]
  else [c]

/-- JSON string escaping of a string body. -/
def jsonEscape (s : List Nat) : List Nat :=
  s.foldr (fun c acc => jsonEscapeChar c ++ acc) []

/-- JSON.stringify of the image payload array
[ \x7b type: "image_url", image_url: \x7b url \x7d \x7d ] built at
noteGenerator.ts 137-143, as serialized at chatGPT.ts 55. -/
def imagePayloadString (url : List Nat) : List Nat :=
  strCodes "[\x7b\"type\":\"image_url\",\"image_url\":\x7b\"url\":\"" ++
    jsonEscape url ++ strCodes "\"\x7d\x7d]"

/-- A wire entry of the request body: role plus a plain string content. -/
structure WireMsg where
  role : Role
  content : List Nat
deriving DecidableEq, Repr

mutual

/-- Generic model of JSON.stringify over dynamic values (string escaping,
arrays and objects with comma separation, insertion-ordered keys). -/
def jsonStringifyV : JVal → List Nat
  | JVal.null => strCodes "null"
  | JVal.boolean true => strCodes "true"
  | JVal.boolean false => strCodes "false"
  | JVal.num lit => lit
  | JVal.str s => 34 :: (jsonEscape s ++ [34])
  | JVal.arr items => 91 :: (jsonStringifyItems items ++ [93])
  | JVal.obj fields => 123 :: (jsonStringifyFields fields ++ [125])

def jsonStringifyItems : List JVal → List Nat
  | [] => []
  | [x] => jsonStringifyV x
  | x :: y :: rest => jsonStringifyV x ++ (44 :: jsonStringifyItems (y :: rest))

def jsonStringifyFields : List (List Nat × JVal) → List Nat
  | [] => []
  | [(k, v)] => (34 :: (jsonEscape k ++ [34, 58])) ++ jsonStringifyV v
  | (k, v) :: f :: rest =>
    (34 :: (jsonEscape k ++ [34, 58])) ++ jsonStringifyV v ++
      (44 :: jsonStringifyFields (f :: rest))

end

/-- The image payload array built at noteGenerator.ts 137-143, as the JSON
value the completion client receives in msg.content. -/
def imagePayload (url : List Nat) : JVal :=
  JVal.arr [JVal.obj [(strCodes "type", JVal.str (strCodes "image_url")),
    (strCodes "image_url", JVal.obj [(strCodes "url", JVal.str url)])]]

/-- The per-message conversion of getChatGPTCompletion (chatGPT.ts 50-61):
string content passes through, non-string content (the image payload) is
replaced by its JSON.stringify serialization. -/
def formatMsg (m : Message) : WireMsg :=
  { role := m.role,
    content :=
      match m.content with
      | MsgContent.text s => s
      | MsgContent.image url => jsonStringifyV (imagePayload url) }

/-- The formattedInput array sent in the request body (chatGPT.ts 50-64). -/
def formatInput (msgs : List Message) : List WireMsg :=
  msgs.map formatMsg

/-- The outcome handling of generateNote (noteGenerator.ts 263-325) reduced
to its effect on the canvas node list and the failure notice: a thrown error
or a generated value with generated == null removes the placeholder node and
reports failure; anything else keeps the placeholder (its text is set to the
reply). -/
def afterReply (nodes : List Nat) (created : Nat)
    (outcome : Except Unit (Option JVal)) : List Nat × Bool :=
  match outcome with
  | Except.error _ => (nodes.erase created, true)
  | Except.ok none => (nodes.erase created, true)
  | Except.ok (some JVal.null) => (nodes.erase created, true)
  | Except.ok (some _) => (nodes, false)

/-- The selected-note id read back after the request (noteGenerator.ts
313-316): defined only when the selection holds exactly one node. The
selection is none when canvas.selection is null. -/
def selectedNoteIdOf (selection : Option (List Nat)) : Option Nat :=
  match selection with
  | some [x] => some x
  | _ => none

/-- The selection-move decision (noteGenerator.ts 318-321):
selectedNoteId === node.id || selectedNoteId == null. -/
def movesSelection (selection : Option (List Nat)) (sourceId : Nat) : Bool :=
  selectedNoteIdOf selection = some sourceId || (selectedNoteIdOf selection).isNone

/-- The walk state after processing the first i chain nodes, starting from
state st0 at depth d. -/
def stateAtD (enc : Encoding) (settings : ChatStreamSettings)
    (st0 : BuildState) (chain : List CanvasNode) (d i : Nat) : BuildState :=
  walkChain (visitNode enc settings) st0 (chain.take i) d

/-- The first k visits accepted every node whole: the walk state after k
steps holds exactly the whole messages of the first k nodes and their whole
token cost. -/
def prefixWhole (enc : Encoding) (settings : ChatStreamSettings)
    (st0 : BuildState) (chain : List CanvasNode) (d k : Nat) : Prop :=
  stateAtD enc settings st0 chain d k =
    ⟨((chain.take k).filterMap nodeMessage).reverse ++ st0.messages,
      st0.tokenCount + chainTokens enc (chain.take k)⟩

instance (enc : Encoding) (settings : ChatStreamSettings) (st0 : BuildState)
    (chain : List CanvasNode) (d k : Nat) :
    Decidable (prefixWhole enc settings st0 chain d k) := by
  unfold prefixWhole
  infer_instance

/-- The walk truncates at position k: node k is a text node whose whole token
count overflows the budget reached there, the walk result is the state after
visiting node k, that visit stops the walk, and it emits the truncated text. -/
def truncationEvent (enc : Encoding) (settings : ChatStreamSettings)
    (st0 : BuildState) (chain : List CanvasNode) (d k : Nat) (hk : k < chain.length) : Prop :=
  isTextNode (chain.get ⟨k, hk⟩) = true ∧
  getTokenLimit settings <
    (stateAtD enc settings st0 chain d k).tokenCount +
      (enc.encode (trimmedText (chain.get ⟨k, hk⟩))).length ∧
  walkChain (visitNode enc settings) st0 chain d =
    (visitNode enc settings (stateAtD enc settings st0 chain d k)
      (chain.get ⟨k, hk⟩) (d + k)).1 ∧
  (visitNode enc settings (stateAtD enc settings st0 chain d k)
    (chain.get ⟨k, hk⟩) (d + k)).2 = false ∧
  (visitNode enc settings (stateAtD enc settings st0 chain d k)
    (chain.get ⟨k, hk⟩) (d + k)).1.messages =
    ⟨roleOf (chain.get ⟨k, hk⟩), MsgContent.text (truncatedText enc settings
        (stateAtD enc settings st0 chain d k) (chain.get ⟨k, hk⟩))⟩ ::
      (stateAtD enc settings st0 chain d k).messages

instance (enc : Encoding) (settings : ChatStreamSettings) (st0 : BuildState)
    (chain : List CanvasNode) (d k : Nat) (hk : k < chain.length) :
    Decidable (truncationEvent enc settings st0 chain d k hk) := by
  unfold truncationEvent
  infer_instance

/-- Budget fits before the truncation point: every text node among the first
k is accepted against a budget that never exceeds the limit. -/
def fitsBefore (enc : Encoding) (settings : ChatStreamSettings)
    (st0 : BuildState) (chain : List CanvasNode) (d k : Nat) (hk : k < chain.length) : Prop :=
  ∀ j (hj : j < k), isTextNode (chain.get ⟨j, hj.trans hk⟩) = true →
    (stateAtD enc settings st0 chain d j).tokenCount +
      (enc.encode (trimmedText (chain.get ⟨j, hj.trans hk⟩))).length ≤ getTokenLimit settings


/-- Shorthand for a plain text canvas node. -/
def tNode (s : String) : CanvasNode := ⟨some (strCodes s), none⟩

/-- Fixture: input limit 3, system prompt of three tokens (fills the whole
budget before the walk starts). -/
def s1x : ChatStreamSettings := ⟨strCodes "xyz", 3, 0⟩

/-- Fixture: limit 2, depth limit 1. -/
def s2x : ChatStreamSettings := ⟨[], 2, 1⟩

/-- Fixture chain of three one-token nodes. -/
def c2x : List CanvasNode := [tNode "a", tNode "b", tNode "c"]

/-- Fixture: limit 2, unlimited depth. -/
def s2w : ChatStreamSettings := ⟨[], 2, 0⟩

/-- Fixture: limit 10, depth limit 1. -/
def s3a : ChatStreamSettings := ⟨[], 10, 1⟩

/-- Fixture: nonempty system prompt, limit 10, unlimited depth. -/
def s3b : ChatStreamSettings := ⟨strCodes "ss", 10, 0⟩

/-- Fixture chain holding one whitespace-only node. -/
def c3b : List CanvasNode := [⟨some (strCodes "   "), none⟩]

/-- Fixture: system prompt of two tokens, limit 10, unlimited depth. -/
def s3w : ChatStreamSettings := ⟨strCodes "pp", 10, 0⟩

/-- Fixture chain of two two-token nodes. -/
def c3w : List CanvasNode := [tNode "ab", tNode "cd"]

/-- Fixture: default system prompt, generous limit. -/
def s4w : ChatStreamSettings := ⟨strCodes "dflt", 50, 0⟩

/-- Fixture chain: an ordinary leaf under a system-prompt-marked ancestor. -/
def c4w : List CanvasNode :=
  [tNode "hello", ⟨some (strCodes "SYSTEM PROMPT be nice"), none⟩]

/-- Fixture response body: an output message whose content field is a plain
string rather than a content array (matches none of the accepted shapes). -/
def rbad : JVal :=
  JVal.obj [(strCodes "output",
    JVal.arr [JVal.obj [(strCodes "content", JVal.str (strCodes "hi"))]])]

/-- Fixture content items of the first accepted shape. -/
def ritems : List JVal :=
  [JVal.obj [(strCodes "type", JVal.str (strCodes "output_text")),
    (strCodes "text", JVal.str (strCodes "ok"))]]

/-- Fixture response body of the first accepted shape. -/
def rgood : JVal :=
  JVal.obj [(strCodes "content", JVal.arr ritems)]

/-- Fixture image node. -/
def imgN : CanvasNode := tNode "data:image/png"

/-- Fixture message list holding a text and an image message. -/
def wmsgs : List Message :=
  [⟨Role.user, MsgContent.text (strCodes "hi")⟩,
   ⟨Role.assistant, MsgContent.image (strCodes "data:image/z")⟩]

/-- Fixture chain in which every node is filtered out: a whitespace-only
node under a system-prompt-marked ancestor. -/
def c8w : List CanvasNode :=
  [⟨some (strCodes "   "), none⟩, ⟨some (strCodes "SYSTEM PROMPT x"), none⟩]

lemma stateAt_eq_stateAtD (enc : Encoding) (settings : ChatStreamSettings)
    (st0 : BuildState) (chain : List CanvasNode) (i : Nat) :
    stateAt enc settings st0 chain i = stateAtD enc settings st0 chain 0 i := rfl

lemma startsWith_iff {p l : List Nat} : startsWith p l = true ↔ p <+: l := by
  unfold startsWith
  exact List.isPrefixOf_iff_prefix

lemma trimR_eq (l : List Nat) : trimR l = List.rdropWhile isWs l := rfl

lemma trimR_isPre (l : List Nat) : trimR l <+: l := by
  rw [trimR_eq]
  exact List.rdropWhile_prefix isWs l

lemma trimL_idem (l : List Nat) : trimL (trimL l) = trimL l :=
  List.dropWhile_idempotent isWs l

lemma trimR_idem (l : List Nat) : trimR (trimR l) = trimR l := by
  rw [trimR_eq, trimR_eq]
  exact List.rdropWhile_idempotent isWs l

lemma trimL_eq_self_of_head {l : List Nat}
    (h : ∀ a t, l = a :: t → isWs a = false) : trimL l = l := by
  cases l with
  | nil => rfl
  | cons a t =>
    rw [trimL, List.dropWhile_cons, if_neg]
    simp [h a t rfl]

lemma trimL_self_head {a : Nat} {r : List Nat}
    (h : trimL (a :: r) = a :: r) : isWs a = false := by
  by_cases hb : isWs a = true
  · unfold trimL at h
    rw [List.dropWhile_cons, if_pos hb] at h
    have hlen := congrArg List.length h
    have hle : (List.dropWhile isWs r).length ≤ r.length :=
      List.IsSuffix.length_le (List.dropWhile_suffix isWs)
    simp only [List.length_cons] at hlen
    omega
  · exact eq_false_of_ne_true hb

lemma trimL_trimR_of_trimL {l : List Nat} (h : trimL l = l) :
    trimL (trimR l) = trimR l := by
  apply trimL_eq_self_of_head
  intro a t ht
  have hpre : trimR l <+: l := trimR_isPre l
  rw [ht] at hpre
  obtain ⟨s, hs⟩ := hpre
  rw [← hs] at h
  exact trimL_self_head (by simpa using h)

lemma trim_trimL (l : List Nat) : trimL (trim l) = trim l :=
  trimL_trimR_of_trimL (trimL_idem l)

lemma trim_idem (l : List Nat) : trim (trim l) = trim l := by
  show trimR (trimL (trim l)) = trim l
  rw [trim_trimL]
  show trimR (trimR (trimL l)) = trim l
  rw [trimR_idem]
  rfl

lemma trim_take_isPre {t : List Nat} (h : trim t = t) (m : Nat) :
    trim (t.take m) <+: t := by
  have htL : trimL t = t := by
    conv_lhs => rw [← h]
    rw [trim_trimL, h]
  have h1 : trimL (t.take m) = t.take m := by
    apply trimL_eq_self_of_head
    intro a r ht
    have hp : t.take m <+: t := List.take_prefix m t
    rw [ht] at hp
    obtain ⟨s, hs⟩ := hp
    rw [← hs] at htL
    exact trimL_self_head (by simpa using htL)
  show trimR (trimL (t.take m)) <+: t
  rw [h1]
  exact List.IsPrefix.trans (trimR_isPre _) ( List.take_prefix m t)

lemma marked_of_take {t : List Nat} (h : trim t = t) {m : Nat}
    (hm : isSystemPromptNode (t.take m) = true) : isSystemPromptNode t = true := by
  unfold isSystemPromptNode at hm ⊢
  rw [h]
  rw [startsWith_iff] at hm ⊢
  exact hm.trans (trim_take_isPre h m)

lemma marked_not_image {t : List Nat} (h : trim t = t)
    (hm : isSystemPromptNode t = true) : startsWith imageSentinel t = false := by
  unfold isSystemPromptNode at hm
  rw [h, startsWith_iff] at hm
  by_contra hc
  rw [Bool.not_eq_false, startsWith_iff] at hc
  obtain ⟨s1, hs1⟩ := hm
  obtain ⟨s2, hs2⟩ := hc
  have e : sysMarker ++ s1 = imageSentinel ++ s2 := hs1.trans hs2.symm
  have e83 : sysMarker = 83 :: sysMarker.drop 1 := by decide
  have e100 : imageSentinel = 100 :: imageSentinel.drop 1 := by decide
  rw [e83, e100] at e
  simp at e

lemma trimmedText_trim (n : CanvasNode) : trim (trimmedText n) = trimmedText n :=
  trim_idem _

lemma walkChain_nil {σ : Type} (visit : σ → CanvasNode → Nat → σ × Bool)
    (s : σ) (d : Nat) : walkChain visit s [] d = s := rfl

lemma walkChain_cons {σ : Type} (visit : σ → CanvasNode → Nat → σ × Bool)
    (s : σ) (n : CanvasNode) (rest : List CanvasNode) (d : Nat) :
    walkChain visit s (n :: rest) d =
      if (visit s n d).2 then walkChain visit (visit s n d).1 rest (d + 1)
      else (visit s n d).1 := rfl

lemma visitNode_depth_stop {enc : Encoding} {settings : ChatStreamSettings}
    {st : BuildState} {n : CanvasNode} {depth : Nat}
    (h : settings.maxDepth ≠ 0 ∧ settings.maxDepth < depth) :
    visitNode enc settings st n depth = (st, false) := by
  unfold visitNode
  rw [if_pos h]

lemma visitNode_empty {enc : Encoding} {settings : ChatStreamSettings}
    {st : BuildState} {n : CanvasNode} {depth : Nat}
    (hd : ¬(settings.maxDepth ≠ 0 ∧ settings.maxDepth < depth))
    (he : trimmedText n = []) :
    visitNode enc settings st n depth = (st, true) := by
  unfold visitNode
  simp [hd, he]

lemma visitNode_image {enc : Encoding} {settings : ChatStreamSettings}
    {st : BuildState} {n : CanvasNode} {depth : Nat}
    (hd : ¬(settings.maxDepth ≠ 0 ∧ settings.maxDepth < depth))
    (he : trimmedText n ≠ [])
    (hi : startsWith imageSentinel (trimmedText n) = true) :
    visitNode enc settings st n depth =
      ({ st with messages :=
          ⟨Role.user, MsgContent.image (trimmedText n)⟩ :: st.messages }, true) := by
  unfold visitNode
  simp [hd, he, hi]

lemma visitNode_marked {enc : Encoding} {settings : ChatStreamSettings}
    {st : BuildState} {n : CanvasNode} {depth : Nat}
    (hd : ¬(settings.maxDepth ≠ 0 ∧ settings.maxDepth < depth))
    (he : trimmedText n ≠ [])
    (hi : startsWith imageSentinel (trimmedText n) = false)
    (hm : isSystemPromptNode (trimmedText n) = true) :
    visitNode enc settings st n depth = (st, true) := by
  unfold visitNode
  simp [hd, he, hi, hm]

lemma visitNode_fit {enc : Encoding} {settings : ChatStreamSettings}
    {st : BuildState} {n : CanvasNode} {depth : Nat}
    (hd : ¬(settings.maxDepth ≠ 0 ∧ settings.maxDepth < depth))
    (he : trimmedText n ≠ [])
    (hi : startsWith imageSentinel (trimmedText n) = false)
    (hm : isSystemPromptNode (trimmedText n) = false)
    (hb : st.tokenCount + (enc.encode (trimmedText n)).length ≤ getTokenLimit settings) :
    visitNode enc settings st n depth =
      (⟨⟨roleOf n, MsgContent.text (trimmedText n)⟩ :: st.messages,
        st.tokenCount + (enc.encode (trimmedText n)).length⟩, true) := by
  have hb' : ¬(getTokenLimit settings < st.tokenCount + (enc.encode (trimmedText n)).length) := by
    omega
  unfold visitNode
  simp [hd, he, hi, hm, hb']

lemma visitNode_overflow {enc : Encoding} {settings : ChatStreamSettings}
    {st : BuildState} {n : CanvasNode} {depth : Nat}
    (hd : ¬(settings.maxDepth ≠ 0 ∧ settings.maxDepth < depth))
    (he : trimmedText n ≠ [])
    (hi : startsWith imageSentinel (trimmedText n) = false)
    (hm : isSystemPromptNode (trimmedText n) = false)
    (hb : getTokenLimit settings < st.tokenCount + (enc.encode (trimmedText n)).length) :
    visitNode enc settings st n depth =
      (⟨⟨roleOf n, MsgContent.text (truncatedText enc settings st n)⟩ :: st.messages,
        st.tokenCount + (jsSliceZero (enc.encode (trimmedText n))
          ((getTokenLimit settings : Int) - (st.tokenCount : Int) - 1)).length⟩, false) := by
  unfold visitNode truncatedText
  simp [hd, he, hi, hm, hb]

lemma chainTokens_nil (enc : Encoding) : chainTokens enc [] = 0 := rfl

lemma chainTokens_cons (enc : Encoding) (n : CanvasNode) (rest : List CanvasNode) :
    chainTokens enc (n :: rest) = textTokens enc n + chainTokens enc rest := by
  simp [chainTokens]

lemma isTextNode_false_of_empty {n : CanvasNode} (he : trimmedText n = []) :
    isTextNode n = false := by
  simp [isTextNode, he]

lemma isTextNode_false_of_image {n : CanvasNode}
    (hi : startsWith imageSentinel (trimmedText n) = true) : isTextNode n = false := by
  simp [isTextNode, hi]

lemma isTextNode_false_of_marked {n : CanvasNode}
    (hm : isSystemPromptNode (trimmedText n) = true) : isTextNode n = false := by
  simp [isTextNode, hm]

lemma isTextNode_true {n : CanvasNode} (he : trimmedText n ≠ [])
    (hi : startsWith imageSentinel (trimmedText n) = false)
    (hm : isSystemPromptNode (trimmedText n) = false) : isTextNode n = true := by
  simp [isTextNode, he, hi, hm]

lemma textTokens_of_text {enc : Encoding} {n : CanvasNode} (h : isTextNode n = true) :
    textTokens enc n = (enc.encode (trimmedText n)).length := by
  simp [textTokens, h]

lemma textTokens_of_not {enc : Encoding} {n : CanvasNode} (h : isTextNode n = false) :
    textTokens enc n = 0 := by
  simp [textTokens, h]

lemma nodeMessage_empty {n : CanvasNode} (he : trimmedText n = []) :
    nodeMessage n = none := by
  simp [nodeMessage, he]

lemma nodeMessage_image {n : CanvasNode} (he : trimmedText n ≠ [])
    (hi : startsWith imageSentinel (trimmedText n) = true) :
    nodeMessage n = some ⟨Role.user, MsgContent.image (trimmedText n)⟩ := by
  simp [nodeMessage, he, hi]

lemma nodeMessage_marked {n : CanvasNode} (he : trimmedText n ≠ [])
    (hi : startsWith imageSentinel (trimmedText n) = false)
    (hm : isSystemPromptNode (trimmedText n) = true) :
    nodeMessage n = none := by
  simp [nodeMessage, he, hi, hm]

lemma nodeMessage_text {n : CanvasNode} (he : trimmedText n ≠ [])
    (hi : startsWith imageSentinel (trimmedText n) = false)
    (hm : isSystemPromptNode (trimmedText n) = false) :
    nodeMessage n = some ⟨roleOf n, MsgContent.text (trimmedText n)⟩ := by
  simp [nodeMessage, he, hi, hm]

/-- A visit step under a sufficient budget: the node contributes its whole
message (when it has one) and its whole token cost, and the walk continues. -/
lemma visitNode_step {enc : Encoding} {settings : ChatStreamSettings}
    {st : BuildState} {n : CanvasNode} {depth : Nat}
    (hd : ¬(settings.maxDepth ≠ 0 ∧ settings.maxDepth < depth))
    (hfit : st.tokenCount + textTokens enc n ≤ getTokenLimit settings) :
    visitNode enc settings st n depth =
      (⟨(nodeMessage n).toList ++ st.messages, st.tokenCount + textTokens enc n⟩, true) := by
  by_cases he : trimmedText n = []
  · rw [visitNode_empty hd he, nodeMessage_empty he,
      textTokens_of_not (isTextNode_false_of_empty he)]
    simp
  · by_cases hi : startsWith imageSentinel (trimmedText n) = true
    · rw [visitNode_image hd he hi, nodeMessage_image he hi,
        textTokens_of_not (isTextNode_false_of_image hi)]
      simp
    · rw [Bool.not_eq_true] at hi
      by_cases hm : isSystemPromptNode (trimmedText n) = true
      · rw [visitNode_marked hd he hi hm, nodeMessage_marked he hi hm,
          textTokens_of_not (isTextNode_false_of_marked hm)]
        simp
      · rw [Bool.not_eq_true] at hm
        have ht := isTextNode_true he hi hm
        rw [textTokens_of_text ht] at hfit
        rw [visitNode_fit hd he hi hm hfit, nodeMessage_text he hi hm,
          textTokens_of_text ht]
        rfl

/-- When the depth limit cannot cut the walk and the whole chain fits under
the limit, the walk accepts every node whole, in order. -/
lemma walk_all_fit (enc : Encoding) (settings : ChatStreamSettings) :
    ∀ (chain : List CanvasNode) (st : BuildState) (d : Nat),
    (settings.maxDepth = 0 ∨ d + chain.length ≤ settings.maxDepth + 1) →
    st.tokenCount + chainTokens enc chain ≤ getTokenLimit settings →
    walkChain (visitNode enc settings) st chain d =
      ⟨(chain.filterMap nodeMessage).reverse ++ st.messages,
        st.tokenCount + chainTokens enc chain⟩ := by
  intro chain
  induction chain with
  | nil =>
    intro st d _ _
    simp [walkChain_nil, chainTokens_nil]
  | cons n rest ih =>
    intro st d hd hfit
    have hdn : ¬(settings.maxDepth ≠ 0 ∧ settings.maxDepth < d) := by
      rcases hd with h | h
      · simp [h]
      · rintro ⟨-, h2⟩
        simp only [List.length_cons] at h
        omega
    rw [chainTokens_cons] at hfit
    have hfit1 : st.tokenCount + textTokens enc n ≤ getTokenLimit settings := by omega
    have hd1 : settings.maxDepth = 0 ∨ (d + 1) + rest.length ≤ settings.maxDepth + 1 := by
      rcases hd with h | h
      · exact Or.inl h
      · right
        simp only [List.length_cons] at h
        omega
    have hfit2 : (⟨(nodeMessage n).toList ++ st.messages,
        st.tokenCount + textTokens enc n⟩ : BuildState).tokenCount +
        chainTokens enc rest ≤ getTokenLimit settings := by
      simp only []
      omega
    rw [walkChain_cons, visitNode_step hdn hfit1]
    simp only [if_pos]
    rw [ih _ (d + 1) hd1 hfit2]
    rw [chainTokens_cons]
    cases hnm : nodeMessage n with
    | none =>
      simp [List.filterMap_cons, hnm]
      omega
    | some m =>
      simp [List.filterMap_cons, hnm, List.append_assoc]
      omega

lemma stateAtD_zero (enc : Encoding) (settings : ChatStreamSettings)
    (st : BuildState) (chain : List CanvasNode) (d : Nat) :
    stateAtD enc settings st chain d 0 = st := rfl

lemma stateAtD_succ_cons {enc : Encoding} {settings : ChatStreamSettings}
    {st : BuildState} {n : CanvasNode} {rest : List CanvasNode} {d i : Nat}
    (hc : (visitNode enc settings st n d).2 = true) :
    stateAtD enc settings st (n :: rest) d (i + 1) =
      stateAtD enc settings (visitNode enc settings st n d).1 rest (d + 1) i := by
  unfold stateAtD
  rw [List.take_succ_cons, walkChain_cons, hc]
  simp

lemma walkChain_cons_stop {enc : Encoding} {settings : ChatStreamSettings}
    {st : BuildState} {n : CanvasNode} {rest : List CanvasNode} {d : Nat}
    (hc : (visitNode enc settings st n d).2 = false) :
    walkChain (visitNode enc settings) st (n :: rest) d =
      (visitNode enc settings st n d).1 := by
  rw [walkChain_cons, hc]
  simp

lemma walkChain_cons_cont {enc : Encoding} {settings : ChatStreamSettings}
    {st : BuildState} {n : CanvasNode} {rest : List CanvasNode} {d : Nat}
    (hc : (visitNode enc settings st n d).2 = true) :
    walkChain (visitNode enc settings) st (n :: rest) d =
      walkChain (visitNode enc settings) (visitNode enc settings st n d).1 rest (d + 1) := by
  rw [walkChain_cons, hc]
  simp

/-- Shift an overflow description over one continuing visit. -/
lemma overflow_lift {enc : Encoding} {settings : ChatStreamSettings}
    {st : BuildState} {n : CanvasNode} {rest : List CanvasNode} {d : Nat}
    (hv : (visitNode enc settings st n d).2 = true)
    (hmsg1 : (visitNode enc settings st n d).1.messages = (nodeMessage n).toList ++ st.messages)
    (htc1 : (visitNode enc settings st n d).1.tokenCount = st.tokenCount + textTokens enc n)
    (hj0 : isTextNode n = true →
      st.tokenCount + (enc.encode (trimmedText n)).length ≤ getTokenLimit settings)
    (h : ∃ k1, ∃ hk1 : k1 < rest.length,
      prefixWhole enc settings (visitNode enc settings st n d).1 rest (d + 1) k1 ∧
      fitsBefore enc settings (visitNode enc settings st n d).1 rest (d + 1) k1 hk1 ∧
      truncationEvent enc settings (visitNode enc settings st n d).1 rest (d + 1) k1 hk1) :
    ∃ k, ∃ hk : k < (n :: rest).length,
      prefixWhole enc settings st (n :: rest) d k ∧
      fitsBefore enc settings st (n :: rest) d k hk ∧
      truncationEvent enc settings st (n :: rest) d k hk := by
  obtain ⟨k1, hk1, hpre, hfits, hev⟩ := h
  have hklt : k1 + 1 < (n :: rest).length := by
    simp only [List.length_cons]
    omega
  have hS : ∀ i, stateAtD enc settings st (n :: rest) d (i + 1) =
      stateAtD enc settings (visitNode enc settings st n d).1 rest (d + 1) i :=
    fun i => stateAtD_succ_cons hv
  refine ⟨k1 + 1, hklt, ?_, ?_, ?_⟩
  · unfold prefixWhole at hpre ⊢
    rw [hS k1, hpre, List.take_succ_cons, List.filterMap_cons, chainTokens_cons]
    cases hnm : nodeMessage n with
    | none =>
      have htz : textTokens enc n = 0 := by
        by_cases he : trimmedText n = []
        · exact textTokens_of_not (isTextNode_false_of_empty he)
        · by_cases hi : startsWith imageSentinel (trimmedText n) = true
          · rw [nodeMessage_image he hi] at hnm
            cases hnm
          · rw [Bool.not_eq_true] at hi
            by_cases hm : isSystemPromptNode (trimmedText n) = true
            · exact textTokens_of_not (isTextNode_false_of_marked hm)
            · rw [Bool.not_eq_true] at hm
              rw [nodeMessage_text he hi hm] at hnm
              cases hnm
      rw [hmsg1, htc1, hnm, htz]
      simp [Nat.add_assoc]
    | some m =>
      rw [hmsg1, htc1, hnm]
      simp [List.append_assoc, Nat.add_assoc]
  · intro j hj
    cases j with
    | zero =>
      intro ht
      simpa [stateAtD_zero] using hj0 ht
    | succ j1 =>
      intro ht
      have hj1 : j1 < k1 := by omega
      have := hfits j1 hj1 (by simpa using ht)
      rw [hS j1]
      simpa using this
  · obtain ⟨e1, e2, e3, e4, e5⟩ := hev
    have hget : (n :: rest).get ⟨k1 + 1, hklt⟩ = rest.get ⟨k1, hk1⟩ := rfl
    have hdep : d + (k1 + 1) = (d + 1) + k1 := by omega
    have hwalk : walkChain (visitNode enc settings) st (n :: rest) d =
        walkChain (visitNode enc settings) (visitNode enc settings st n d).1 rest (d + 1) :=
      walkChain_cons_cont hv
    refine ⟨?_, ?_, ?_, ?_, ?_⟩
    · rw [hget]
      exact e1
    · rw [hget, hS k1]
      exact e2
    · rw [hwalk, hget, hS k1, hdep]
      exact e3
    · rw [hget, hS k1, hdep]
      exact e4
    · rw [hget, hS k1, hdep]
      exact e5

/-- When the depth limit cannot cut the walk and the chain's whole token
count overflows the budget, the walk truncates at exactly one position k,
having accepted the first k nodes whole. -/
lemma walk_overflow (enc : Encoding) (settings : ChatStreamSettings) :
    ∀ (chain : List CanvasNode) (st : BuildState) (d : Nat),
    getTokenLimit settings < st.tokenCount + chainTokens enc chain →
    0 < chainTokens enc chain →
    (settings.maxDepth = 0 ∨ d + chain.length ≤ settings.maxDepth + 1) →
    ∃ k, ∃ hk : k < chain.length,
      prefixWhole enc settings st chain d k ∧
      fitsBefore enc settings st chain d k hk ∧
      truncationEvent enc settings st chain d k hk := by
  intro chain
  induction chain with
  | nil =>
    intro st d hover hpos hd
    rw [chainTokens_nil] at hpos
    omega
  | cons n rest ih =>
    intro st d hover hpos hd
    have hdn : ¬(settings.maxDepth ≠ 0 ∧ settings.maxDepth < d) := by
      rcases hd with h | h
      · simp [h]
      · rintro ⟨-, h2⟩
        simp only [List.length_cons] at h
        omega
    have hd1 : settings.maxDepth = 0 ∨ (d + 1) + rest.length ≤ settings.maxDepth + 1 := by
      rcases hd with h | h
      · exact Or.inl h
      · right
        simp only [List.length_cons] at h
        omega
    rw [chainTokens_cons] at hover hpos
    by_cases he : trimmedText n = []
    · have hv : visitNode enc settings st n d = (st, true) := visitNode_empty hdn he
      have htz : textTokens enc n = 0 := textTokens_of_not (isTextNode_false_of_empty he)
      rw [htz] at hover hpos
      refine overflow_lift (by rw [hv]) ?_ ?_ ?_
        (ih (visitNode enc settings st n d).1 (d + 1) ?_ ?_ hd1)
      · rw [hv, nodeMessage_empty he]
        simp
      · simp [hv, htz]
      · intro ht
        rw [isTextNode_false_of_empty he] at ht
        exact Bool.noConfusion ht
      · simp [hv]
        omega
      · omega
    · by_cases hi : startsWith imageSentinel (trimmedText n) = true
      · have hv : visitNode enc settings st n d =
            ({ st with messages :=
                ⟨Role.user, MsgContent.image (trimmedText n)⟩ :: st.messages }, true) :=
          visitNode_image hdn he hi
        have htz : textTokens enc n = 0 := textTokens_of_not (isTextNode_false_of_image hi)
        rw [htz] at hover hpos
        refine overflow_lift (by rw [hv]) ?_ ?_ ?_
          (ih (visitNode enc settings st n d).1 (d + 1) ?_ ?_ hd1)
        · rw [hv, nodeMessage_image he hi]
          simp
        · simp [hv, htz]
        · intro ht
          rw [isTextNode_false_of_image hi] at ht
          exact Bool.noConfusion ht
        · simp [hv]
          omega
        · omega
      · rw [Bool.not_eq_true] at hi
        by_cases hm : isSystemPromptNode (trimmedText n) = true
        · have hv : visitNode enc settings st n d = (st, true) :=
            visitNode_marked hdn he hi hm
          have htz : textTokens enc n = 0 := textTokens_of_not (isTextNode_false_of_marked hm)
          rw [htz] at hover hpos
          refine overflow_lift (by rw [hv]) ?_ ?_ ?_
            (ih (visitNode enc settings st n d).1 (d + 1) ?_ ?_ hd1)
          · rw [hv, nodeMessage_marked he hi hm]
            simp
          · simp [hv, htz]
          · intro ht
            rw [isTextNode_false_of_marked hm] at ht
            exact Bool.noConfusion ht
          · simp [hv]
            omega
          · omega
        · rw [Bool.not_eq_true] at hm
          have htxt := isTextNode_true he hi hm
          have httok : textTokens enc n = (enc.encode (trimmedText n)).length :=
            textTokens_of_text htxt
          by_cases hb : getTokenLimit settings <
              st.tokenCount + (enc.encode (trimmedText n)).length
          · -- the walk truncates right here
            have hv : visitNode enc settings st n d =
                (⟨⟨roleOf n, MsgContent.text (truncatedText enc settings st n)⟩ :: st.messages,
                  st.tokenCount + (jsSliceZero (enc.encode (trimmedText n))
                    ((getTokenLimit settings : Int) - (st.tokenCount : Int) - 1)).length⟩,
                 false) :=
              visitNode_overflow hdn he hi hm hb
            refine ⟨0, by simp, ?_, ?_, ?_⟩
            · unfold prefixWhole
              rw [stateAtD_zero]
              simp [chainTokens_nil]
            · intro j hj
              omega
            · refine ⟨?_, ?_, ?_, ?_, ?_⟩
              · show isTextNode n = true
                exact htxt
              · show getTokenLimit settings <
                  st.tokenCount + (enc.encode (trimmedText n)).length
                exact hb
              · show walkChain (visitNode enc settings) st (n :: rest) d =
                  (visitNode enc settings st n d).1
                exact walkChain_cons_stop (by rw [hv])
              · show (visitNode enc settings st n d).2 = false
                rw [hv]
              · show (visitNode enc settings st n d).1.messages =
                  ⟨roleOf n, MsgContent.text (truncatedText enc settings st n)⟩ :: st.messages
                rw [hv]
          · have hble : st.tokenCount + (enc.encode (trimmedText n)).length ≤
                getTokenLimit settings := by omega
            have hv : visitNode enc settings st n d =
                (⟨⟨roleOf n, MsgContent.text (trimmedText n)⟩ :: st.messages,
                  st.tokenCount + (enc.encode (trimmedText n)).length⟩, true) :=
              visitNode_fit hdn he hi hm hble
            refine overflow_lift (by rw [hv]) ?_ ?_ ?_
              (ih (visitNode enc settings st n d).1 (d + 1) ?_ ?_ hd1)
            · rw [hv, nodeMessage_text he hi hm]
              rfl
            · simp [hv, httok]
            · intro _
              exact hble
            · simp [hv]
              rw [httok] at hover
              omega
            · rw [httok] at hover
              omega

lemma getTokenLimit_pos (settings : ChatStreamSettings) : 0 < getTokenLimit settings := by
  unfold getTokenLimit
  split <;> omega

lemma charEncoding_prefixStable : PrefixStable charEncoding := by
  intro t k
  simp only [charEncoding]
  rw [List.length_take]
  rcases Nat.le_total k t.length with h | h
  · rw [Nat.min_eq_left h]
  · rw [Nat.min_eq_right h, List.take_length, List.take_of_length_le h]

lemma spWalk_eq_firstMarked :
    ∀ (chain : List CanvasNode) (d : Nat),
    walkChain spVisitor none chain d = firstMarkedPrompt chain := by
  intro chain
  induction chain with
  | nil =>
    intro d
    rfl
  | cons n rest ih =>
    intro d
    rw [walkChain_cons]
    unfold firstMarkedPrompt
    rw [List.findSome?_cons]
    unfold spVisitor
    cases hc : n.content with
    | none =>
      simp only []
      exact ih (d + 1)
    | some t =>
      simp only []
      by_cases hm : t ≠ [] ∧ isSystemPromptNode t = true
      · rw [if_pos hm, if_pos hm]
        simp
      · rw [if_neg hm, if_neg hm]
        simp only []
        exact ih (d + 1)

lemma firstMarked_ne_nil {chain : List CanvasNode} {t : List Nat}
    (h : firstMarkedPrompt chain = some t) : t ≠ [] := by
  induction chain with
  | nil => exact absurd h (by simp [firstMarkedPrompt])
  | cons n rest ih =>
    unfold firstMarkedPrompt at h
    rw [List.findSome?_cons] at h
    revert h
    cases hc : n.content with
    | none =>
      intro h
      exact ih h
    | some u =>
      simp only []
      by_cases hm : u ≠ [] ∧ isSystemPromptNode u = true
      · rw [if_pos hm]
        intro h
        injection h with h1
        subst h1
        exact hm.1
      · rw [if_neg hm]
        intro h
        exact ih h

/-- Invariant of the builder walk: it never emits a system-prompt-marked text
as a non-system message. -/
lemma walk_no_marked (enc : Encoding) (settings : ChatStreamSettings) :
    ∀ (chain : List CanvasNode) (st : BuildState) (d : Nat),
    (∀ m s, m ∈ st.messages → m.role ≠ Role.system →
      m.content = MsgContent.text s → isSystemPromptNode s = false) →
    ∀ m s, m ∈ (walkChain (visitNode enc settings) st chain d).messages →
      m.role ≠ Role.system → m.content = MsgContent.text s →
      isSystemPromptNode s = false := by
  intro chain
  induction chain with
  | nil =>
    intro st d hinv
    exact hinv
  | cons n rest ih =>
    intro st d hinv
    by_cases hd : settings.maxDepth ≠ 0 ∧ settings.maxDepth < d
    · rw [walkChain_cons_stop (by rw [visitNode_depth_stop hd])]
      rw [visitNode_depth_stop hd]
      exact hinv
    · by_cases he : trimmedText n = []
      · rw [walkChain_cons_cont (by rw [visitNode_empty hd he])]
        rw [visitNode_empty hd he]
        exact ih st (d + 1) hinv
      · by_cases hi : startsWith imageSentinel (trimmedText n) = true
        · rw [walkChain_cons_cont (by rw [visitNode_image hd he hi])]
          rw [visitNode_image hd he hi]
          apply ih _ (d + 1)
          intro m s hmem hrole hcont
          rcases List.mem_cons.mp hmem with h | h
          · subst h
            cases hcont
          · exact hinv m s h hrole hcont
        · rw [Bool.not_eq_true] at hi
          by_cases hm : isSystemPromptNode (trimmedText n) = true
          · rw [walkChain_cons_cont (by rw [visitNode_marked hd he hi hm])]
            rw [visitNode_marked hd he hi hm]
            exact ih st (d + 1) hinv
          · rw [Bool.not_eq_true] at hm
            by_cases hb : getTokenLimit settings <
                st.tokenCount + (enc.encode (trimmedText n)).length
            · rw [walkChain_cons_stop (by rw [visitNode_overflow hd he hi hm hb])]
              rw [visitNode_overflow hd he hi hm hb]
              intro m s hmem hrole hcont
              rcases List.mem_cons.mp hmem with h | h
              · subst h
                cases hcont
                by_contra hmk
                rw [Bool.not_eq_false] at hmk
                have := marked_of_take (trimmedText_trim n) hmk
                rw [hm] at this
                exact Bool.noConfusion this
              · exact hinv m s h hrole hcont
            · have hble : st.tokenCount + (enc.encode (trimmedText n)).length ≤
                  getTokenLimit settings := by omega
              rw [walkChain_cons_cont (by rw [visitNode_fit hd he hi hm hble])]
              rw [visitNode_fit hd he hi hm hble]
              apply ih _ (d + 1)
              intro m s hmem hrole hcont
              rcases List.mem_cons.mp hmem with h | h
              · subst h
                cases hcont
                exact hm
              · exact hinv m s h hrole hcont

lemma jsonStringify_imagePayload (url : List Nat) :
    jsonStringifyV (imagePayload url) = imagePayloadString url := by
  simp only [imagePayload, imagePayloadString, jsonStringifyV.eq_def,
    jsonStringifyItems.eq_def, jsonStringifyFields.eq_def]
  simp [jsonEscape, jsonEscapeChar, strCodes, List.foldr]

lemma filterOutputTexts_ok {items : List JVal}
    (h : ∀ i ∈ items, isNullV i = false) :
    ∃ kept, filterOutputTexts items = Except.ok kept := by
  induction items with
  | nil => exact ⟨[], rfl⟩
  | cons i rest ih =>
    have hi : isNullV i = false := h i (by simp)
    obtain ⟨kept, hkept⟩ := ih (fun j hj => h j (by simp [hj]))
    exact ⟨if keepOutput i then i :: kept else kept,
      by rw [filterOutputTexts, if_neg (by simp [hi]), hkept]; rfl⟩

/-- Soundness of the fall-through: extracting a value there means the body
carried the nested output shape or the output_text field. -/
lemma parseFallback_sound {res : JVal} {v : JVal}
    (h : parseFallback res = Except.ok (some v)) :
    (hasNestedOutput res || hasOutputText res) = true := by
  unfold parseFallback at h
  unfold hasNestedOutput hasOutputText
  by_cases ho : jTruthy (jGet res (strCodes "output")) = true
  · rw [if_pos ho] at h
    cases hov : jGet res (strCodes "output") with
    | none =>
      rw [hov] at ho
      exact Bool.noConfusion ho
    | some ov =>
      rw [hov] at h
      cases ov with
      | arr ms =>
        cases ms with
        | nil =>
          simp only [] at h
          injection h with h1
          simp [hov, h1]
        | cons m rest =>
          simp only [] at h
          by_cases hm : truthy m = true
          · rw [if_pos hm] at h
            cases hcm : jGet m (strCodes "content") with
            | none =>
              rw [hcm] at h
              injection h with h1
              simp [hov, hcm, h1]
            | some c =>
              rw [hcm] at h
              simp only [] at h
              by_cases hct : truthy c = true
              · rw [if_pos hct] at h
                cases c with
                | arr citems => simp [hov, hcm]
                | null => exact absurd hct (by simp [truthy])
                | boolean b => exact Except.noConfusion h
                | num lit => exact Except.noConfusion h
                | str s => exact Except.noConfusion h
                | obj fs => exact Except.noConfusion h
              · rw [if_neg hct] at h
                injection h with h1
                simp [hov, hcm, h1]
          · rw [if_neg hm] at h
            injection h with h1
            simp [hov, h1]
      | null =>
        simp only [] at h
        injection h with h1
        simp [hov, h1]
      | boolean b =>
        simp only [] at h
        injection h with h1
        simp [hov, h1]
      | num lit =>
        simp only [] at h
        injection h with h1
        simp [hov, h1]
      | str s =>
        simp only [] at h
        injection h with h1
        simp [hov, h1]
      | obj fs =>
        simp only [] at h
        injection h with h1
        simp [hov, h1]
  · rw [if_neg ho] at h
    injection h with h1
    simp [h1]

/-- Soundness of response sniffing: whenever the parser extracts a value,
the body matched one of the three accepted shapes. -/
lemma parse_sound {res : JVal} {v : JVal}
    (h : parseResponse res = Except.ok (some v)) : matchesShape res = true := by
  unfold parseResponse at h
  unfold matchesShape
  cases hc : jGet res (strCodes "content") with
  | some w =>
    cases w with
    | arr items => simp [hasContentArr, hc]
    | null =>
      rw [hc] at h
      simp only [] at h
      have h2 := parseFallback_sound h
      simp only [Bool.or_eq_true] at h2 ⊢
      tauto
    | boolean b =>
      rw [hc] at h
      simp only [] at h
      have h2 := parseFallback_sound h
      simp only [Bool.or_eq_true] at h2 ⊢
      tauto
    | num lit =>
      rw [hc] at h
      simp only [] at h
      have h2 := parseFallback_sound h
      simp only [Bool.or_eq_true] at h2 ⊢
      tauto
    | str s =>
      rw [hc] at h
      simp only [] at h
      have h2 := parseFallback_sound h
      simp only [Bool.or_eq_true] at h2 ⊢
      tauto
    | obj fs =>
      rw [hc] at h
      simp only [] at h
      have h2 := parseFallback_sound h
      simp only [Bool.or_eq_true] at h2 ⊢
      tauto
  | none =>
    rw [hc] at h
    simp only [] at h
    have h2 := parseFallback_sound h
    simp only [Bool.or_eq_true] at h2 ⊢
    tauto

lemma marked_ne_nil {t : List Nat} (h : isSystemPromptNode t = true) : t ≠ [] := by
  intro he
  subst he
  exact Bool.noConfusion h

/-- C7: a visited node whose trimmed content starts with the image sentinel
is emitted as a user message carrying the image payload, regardless of the
remaining token budget (no budget hypothesis appears), contributes zero to
the running token count, and its content is the whole untruncated text. -/
theorem image_node_emission (enc : Encoding) (settings : ChatStreamSettings)
    (st : BuildState) (n : CanvasNode) (depth : Nat)
    (hd : ¬(settings.maxDepth ≠ 0 ∧ settings.maxDepth < depth))
    (he : trimmedText n ≠ [])
    (hi : startsWith imageSentinel (trimmedText n) = true) :
    visitNode enc settings st n depth =
      ({ st with messages :=
          ⟨Role.user, MsgContent.image (trimmedText n)⟩ :: st.messages }, true) ∧
    (visitNode enc settings st n depth).1.tokenCount = st.tokenCount := by
  refine ⟨visitNode_image hd he hi, ?_⟩
  rw [visitNode_image hd he hi]

/-- Witness for C7 at a concrete image node with an exhausted budget. -/
theorem image_node_emission_witness :
    (¬(s2w.maxDepth ≠ 0 ∧ s2w.maxDepth < 0)) ∧ trimmedText imgN ≠ [] ∧
    startsWith imageSentinel (trimmedText imgN) = true ∧
    (visitNode charEncoding s2w ⟨[], 99⟩ imgN 0 =
      ({ (⟨[], 99⟩ : BuildState) with messages :=
          ⟨Role.user, MsgContent.image (trimmedText imgN)⟩ ::
            (⟨[], 99⟩ : BuildState).messages }, true) ∧
      (visitNode charEncoding s2w ⟨[], 99⟩ imgN 0).1.tokenCount =
        (⟨[], 99⟩ : BuildState).tokenCount) :=
  ⟨by decide, by decide, by decide,
    image_node_emission charEncoding s2w ⟨[], 99⟩ imgN 0
      (by decide) (by decide) (by decide)⟩

/-- C9: corrected. The spec claims selection moves to the reply if and only
if the selection still points at the source; the code also moves it whenever
no single node is selected (empty or multi-selection, or a null selection
set), because selectedNoteId == null also triggers the move. Amended: the
selection moves exactly when the selection is still the source singleton or
no selected-note id could be read. -/
theorem selection_move_amended (selection : Option (List Nat)) (sourceId : Nat) :
    movesSelection selection sourceId = true ↔
      (selection = some [sourceId] ∨ selectedNoteIdOf selection = none) := by
  cases selection with
  | none => simp [movesSelection, selectedNoteIdOf]
  | some l =>
    match l with
    | [] => simp [movesSelection, selectedNoteIdOf]
    | [x] => simp [movesSelection, selectedNoteIdOf]
    | x :: y :: rest => simp [movesSelection, selectedNoteIdOf]

/-- Counterexample to C9 as stated: with nothing selected (and likewise with
two nodes selected), the selection no longer points at the source, yet the
code still moves it to the reply node. -/
theorem selection_move_cex :
    movesSelection none 5 = true ∧ (none : Option (List Nat)) ≠ some [5] ∧
    movesSelection (some [4, 6]) 5 = true ∧
    (some [4, 6] : Option (List Nat)) ≠ some [5] := by
  refine ⟨by decide, by decide, by decide, by decide⟩

/-- C10: every wire entry of the request body carries a plain string content:
text messages pass through and the image payload is serialized by the
JSON.stringify model to exactly the flat JSON text of the payload array,
preserving order and roles. -/
theorem wire_content_serialization (msgs : List Message) :
    (formatInput msgs).length = msgs.length ∧
    (∀ i, ∀ hi : i < msgs.length,
      (formatInput msgs).get ⟨i, by simpa [formatInput] using hi⟩ =
        ⟨(msgs.get ⟨i, hi⟩).role,
          match (msgs.get ⟨i, hi⟩).content with
          | MsgContent.text s => s
          | MsgContent.image url => imagePayloadString url⟩) := by
  constructor
  · simp [formatInput]
  · intro i hi
    show (List.map formatMsg msgs).get _ = _
    rw [List.get_map]
    unfold formatMsg
    cases hcon : (msgs.get ⟨i, hi⟩).content with
    | text s => simp
    | image url => simp [jsonStringify_imagePayload]

/-- Witness for C10 at a two-message list whose second entry is an image. -/
theorem wire_content_serialization_witness :
    (1 < wmsgs.length) ∧
    (formatInput wmsgs).get ⟨1, by decide⟩ =
      ⟨Role.assistant, imagePayloadString (strCodes "data:image/z")⟩ :=
  ⟨by decide, (wire_content_serialization wmsgs).2 1 (by decide)⟩

/-- C6: corrected. On a thrown transport error or a null/undefined reply the
placeholder node is removed from the canvas and a failure notice shown; but
an EMPTY-STRING reply is not discarded as the claim states: generated == null
is false for the empty string, so the placeholder is kept and filled with the
empty reply. Amended accordingly. -/
theorem placeholder_removal_amended (nodes : List Nat) (created : Nat)
    (outcome : Except Unit (Option JVal)) (hmem : created ∉ nodes) :
    ((outcome = Except.error () ∨ outcome = Except.ok none ∨
        outcome = Except.ok (some JVal.null)) →
      created ∉ (afterReply (nodes ++ [created]) created outcome).1 ∧
        (afterReply (nodes ++ [created]) created outcome).2 = true) ∧
    (∀ v, outcome = Except.ok (some v) → isNullV v = false →
      afterReply (nodes ++ [created]) created outcome = (nodes ++ [created], false)) := by
  have herase : (nodes ++ [created]).erase created = nodes := by
    rw [List.erase_append_right _ hmem, List.erase_cons_head, List.append_nil]
  constructor
  · intro hout
    have hrem : afterReply (nodes ++ [created]) created outcome = (nodes, true) := by
      rcases hout with h | h | h <;> subst h <;> simp [afterReply, herase]
    rw [hrem]
    exact ⟨hmem, rfl⟩
  · intro v hv hnn
    subst hv
    cases v <;> simp_all [afterReply, isNullV]

/-- Witness for C6 (amended) at a transport error with a fresh placeholder. -/
theorem placeholder_removal_amended_witness :
    ((3 : Nat) ∉ [7]) ∧
    ((((Except.error () : Except Unit (Option JVal)) = Except.error () ∨
        (Except.error () : Except Unit (Option JVal)) = Except.ok none ∨
        (Except.error () : Except Unit (Option JVal)) = Except.ok (some JVal.null)) →
      (3 : Nat) ∉ (afterReply ([7] ++ [3]) 3 (Except.error ())).1 ∧
        (afterReply ([7] ++ [3]) 3 (Except.error ())).2 = true) ∧
    (∀ v, (Except.error () : Except Unit (Option JVal)) = Except.ok (some v) →
      isNullV v = false →
      afterReply ([7] ++ [3]) 3 (Except.error ()) = ([7] ++ [3], false))) :=
  ⟨by decide, placeholder_removal_amended [7] 3 (Except.error ()) (by decide)⟩

/-- Counterexample to C6 as stated: an empty-string reply is one of the
claimed failure outcomes, yet the placeholder node (id 3) survives and no
failure is reported. -/
theorem placeholder_removal_cex :
    afterReply ([7] ++ [3]) 3 (Except.ok (some (JVal.str []))) = ([7, 3], false) ∧
    (3 : Nat) ∈ (afterReply ([7] ++ [3]) 3 (Except.ok (some (JVal.str [])))).1 := by
  refine ⟨by decide, by decide⟩

/-- C1 (amended): in the truncation branch, whenever the running token count
is still strictly below the input limit and the encoder is prefix-stable,
the emitted message is the truncated text, its re-encoded token count plus
the running count stays at most limit - 1 (the one-token margin), and the
accepted token count after truncation stays at most limit - 1 < limit. -/
theorem truncation_margin_amended (enc : Encoding) (settings : ChatStreamSettings)
    (st : BuildState) (n : CanvasNode) (depth : Nat)
    (hd : ¬(settings.maxDepth ≠ 0 ∧ settings.maxDepth < depth))
    (he : trimmedText n ≠ [])
    (hi : startsWith imageSentinel (trimmedText n) = false)
    (hm : isSystemPromptNode (trimmedText n) = false)
    (hb : getTokenLimit settings < st.tokenCount + (enc.encode (trimmedText n)).length)
    (hlt : st.tokenCount < getTokenLimit settings)
    (hps : PrefixStable enc) :
    (visitNode enc settings st n depth).1.messages =
      ⟨roleOf n, MsgContent.text (truncatedText enc settings st n)⟩ :: st.messages ∧
    st.tokenCount + (enc.encode (truncatedText enc settings st n)).length ≤
      getTokenLimit settings - 1 ∧
    (visitNode enc settings st n depth).1.tokenCount =
      st.tokenCount + (enc.encode (truncatedText enc settings st n)).length ∧
    (visitNode enc settings st n depth).1.tokenCount ≤ getTokenLimit settings - 1 := by
  have hv := visitNode_overflow hd he hi hm hb
  have hkeep : jsSliceZero (enc.encode (trimmedText n))
      ((getTokenLimit settings : Int) - (st.tokenCount : Int) - 1) =
      (enc.encode (trimmedText n)).take (getTokenLimit settings - st.tokenCount - 1) := by
    unfold jsSliceZero
    rw [if_neg (by omega)]
    congr 1
    omega
  have henc : enc.encode (truncatedText enc settings st n) =
      (enc.encode (trimmedText n)).take (getTokenLimit settings - st.tokenCount - 1) := by
    unfold truncatedText
    rw [hkeep]
    exact hps (trimmedText n) (getTokenLimit settings - st.tokenCount - 1)
  have hlen : (enc.encode (truncatedText enc settings st n)).length ≤
      getTokenLimit settings - st.tokenCount - 1 := by
    rw [henc, List.length_take]
    omega
  refine ⟨?_, ?_, ?_, ?_⟩
  · rw [hv]
  · omega
  · rw [hv]
    simp only []
    rw [hkeep, ← henc]
  · rw [hv]
    simp only []
    rw [hkeep, ← henc]
    omega

/-- Witness for C1 (amended): limit 2, one token already accounted, a
three-token node; the kept text re-encodes to 0 tokens and the accepted
count stays at 1 = limit - 1. -/
theorem truncation_margin_amended_witness :
    trimmedText (tNode "abc") ≠ [] ∧
    getTokenLimit s2w < (⟨[], 1⟩ : BuildState).tokenCount +
      (charEncoding.encode (trimmedText (tNode "abc"))).length ∧
    (⟨[], 1⟩ : BuildState).tokenCount < getTokenLimit s2w ∧
    PrefixStable charEncoding ∧
    ((visitNode charEncoding s2w ⟨[], 1⟩ (tNode "abc") 0).1.messages =
      ⟨roleOf (tNode "abc"),
        MsgContent.text (truncatedText charEncoding s2w ⟨[], 1⟩ (tNode "abc"))⟩ ::
        (⟨[], 1⟩ : BuildState).messages ∧
    (⟨[], 1⟩ : BuildState).tokenCount +
        (charEncoding.encode (truncatedText charEncoding s2w ⟨[], 1⟩ (tNode "abc"))).length ≤
      getTokenLimit s2w - 1 ∧
    (visitNode charEncoding s2w ⟨[], 1⟩ (tNode "abc") 0).1.tokenCount =
      (⟨[], 1⟩ : BuildState).tokenCount +
        (charEncoding.encode (truncatedText charEncoding s2w ⟨[], 1⟩ (tNode "abc"))).length ∧
    (visitNode charEncoding s2w ⟨[], 1⟩ (tNode "abc") 0).1.tokenCount ≤
      getTokenLimit s2w - 1) :=
  ⟨by decide, by decide, by decide, charEncoding_prefixStable,
    truncation_margin_amended charEncoding s2w ⟨[], 1⟩ (tNode "abc") 0
      (by decide) (by decide) (by decide) (by decide) (by decide) (by decide)
      charEncoding_prefixStable⟩

/-- Counterexample to C1 as stated: when the system prompt has already
consumed the whole limit (running count 3 = limit, reached by the real build
shown in the last conjunct), the JS slice end index is negative and keeps
four of the five tokens: the accepted count becomes 7 > 3 and the truncated
text re-encodes to 4 > limit - 1 = 2 tokens. -/
theorem truncation_margin_cex :
    getTokenLimit s1x < (visitNode charEncoding s1x ⟨[], 3⟩ (tNode "abcde") 0).1.tokenCount ∧
    getTokenLimit s1x - 1 <
      (charEncoding.encode (truncatedText charEncoding s1x ⟨[], 3⟩ (tNode "abcde"))).length ∧
    visitNode charEncoding s1x ⟨[], 3⟩ (tNode "abcde") 0 =
      (⟨[⟨Role.user, MsgContent.text (strCodes "abcd")⟩], 7⟩, false) ∧
    getTokenLimit s1x < (⟨[], 3⟩ : BuildState).tokenCount +
      (charEncoding.encode (trimmedText (tNode "abcde"))).length ∧
    buildMessages charEncoding s1x [tNode "abcde"] none =
      ([⟨Role.system, MsgContent.text (strCodes "xyz")⟩,
        ⟨Role.user, MsgContent.text (strCodes "abcd")⟩], 7) := by
  refine ⟨by decide, by decide, by decide, by decide, by decide⟩

/-- C2 (amended): for every chain within the configured depth limit whose
whole-text token count exceeds the input limit, the builder truncates at
exactly one position k: the first k nodes are accepted whole (prefixWhole,
fitsBefore), node k is a text node overflowing the budget there, the walk
stops with node k emitting the truncated text (truncationEvent, so later
ancestors are absent from the result), and the returned message list is the
system-prompt prefix plus exactly the messages the stopped walk holds. -/
theorem overflow_single_truncation_amended (enc : Encoding)
    (settings : ChatStreamSettings) (chain : List CanvasNode)
    (hdepth : settings.maxDepth = 0 ∨ chain.length ≤ settings.maxDepth + 1)
    (hover : getTokenLimit settings < chainTokens enc chain) :
    ∃ k, ∃ hk : k < chain.length,
      prefixWhole enc settings ⟨[], initialTokenCount enc settings chain⟩ chain 0 k ∧
      fitsBefore enc settings ⟨[], initialTokenCount enc settings chain⟩ chain 0 k hk ∧
      truncationEvent enc settings ⟨[], initialTokenCount enc settings chain⟩ chain 0 k hk ∧
      buildMessages enc settings chain none =
        ((if getSystemPrompt settings chain ≠ [] then
            ⟨Role.system, MsgContent.text (getSystemPrompt settings chain)⟩ ::
              (walkChain (visitNode enc settings)
                ⟨[], initialTokenCount enc settings chain⟩ chain 0).messages
          else (walkChain (visitNode enc settings)
            ⟨[], initialTokenCount enc settings chain⟩ chain 0).messages),
         (walkChain (visitNode enc settings)
           ⟨[], initialTokenCount enc settings chain⟩ chain 0).tokenCount) := by
  have h0 : getTokenLimit settings <
      (⟨[], initialTokenCount enc settings chain⟩ : BuildState).tokenCount +
        chainTokens enc chain := by
    simp only []
    omega
  have hpos : 0 < chainTokens enc chain := by
    have := getTokenLimit_pos settings
    omega
  have hd : settings.maxDepth = 0 ∨ 0 + chain.length ≤ settings.maxDepth + 1 := by
    rcases hdepth with h | h
    · exact Or.inl h
    · right
      omega
  obtain ⟨k, hk, hpre, hfits, hev⟩ :=
    walk_overflow enc settings chain ⟨[], initialTokenCount enc settings chain⟩ 0 h0 hpos hd
  refine ⟨k, hk, hpre, hfits, hev, ?_⟩
  obtain ⟨e1, e2, e3, e4, e5⟩ := hev
  have hne : (walkChain (visitNode enc settings)
      ⟨[], initialTokenCount enc settings chain⟩ chain 0).messages ≠ [] := by
    rw [e3, e5]
    exact List.cons_ne_nil _ _
  unfold buildMessages
  simp only []
  rw [if_pos hne]

/-- Witness for C2 (amended): limit 2, a single three-token node. -/
theorem overflow_single_truncation_amended_witness :
    (s2w.maxDepth = 0 ∨ ([tNode "abc"] : List CanvasNode).length ≤ s2w.maxDepth + 1) ∧
    getTokenLimit s2w < chainTokens charEncoding [tNode "abc"] ∧
    (∃ k, ∃ hk : k < ([tNode "abc"] : List CanvasNode).length,
      prefixWhole charEncoding s2w
        ⟨[], initialTokenCount charEncoding s2w [tNode "abc"]⟩ [tNode "abc"] 0 k ∧
      fitsBefore charEncoding s2w
        ⟨[], initialTokenCount charEncoding s2w [tNode "abc"]⟩ [tNode "abc"] 0 k hk ∧
      truncationEvent charEncoding s2w
        ⟨[], initialTokenCount charEncoding s2w [tNode "abc"]⟩ [tNode "abc"] 0 k hk ∧
      buildMessages charEncoding s2w [tNode "abc"] none =
        ((if getSystemPrompt s2w [tNode "abc"] ≠ [] then
            ⟨Role.system, MsgContent.text (getSystemPrompt s2w [tNode "abc"])⟩ ::
              (walkChain (visitNode charEncoding s2w)
                ⟨[], initialTokenCount charEncoding s2w [tNode "abc"]⟩ [tNode "abc"] 0).messages
          else (walkChain (visitNode charEncoding s2w)
            ⟨[], initialTokenCount charEncoding s2w [tNode "abc"]⟩ [tNode "abc"] 0).messages),
         (walkChain (visitNode charEncoding s2w)
           ⟨[], initialTokenCount charEncoding s2w [tNode "abc"]⟩ [tNode "abc"] 0).tokenCount)) :=
  ⟨by decide, by decide,
    overflow_single_truncation_amended charEncoding s2w [tNode "abc"]
      (by decide) (by decide)⟩

/-- Counterexample to C2 as stated: limit 2, depth limit 1, three one-token
nodes. The chain total (3 tokens) exceeds the limit, yet no position is a
truncation event — the walk is cut by the depth limit first, both visited
nodes are kept whole and nothing is truncated (zero truncations, not one). -/
theorem overflow_single_truncation_cex :
    getTokenLimit s2x < chainTokens charEncoding c2x ∧
    (∀ k, ∀ hk : k < c2x.length,
      ¬truncationEvent charEncoding s2x
        ⟨[], initialTokenCount charEncoding s2x c2x⟩ c2x 0 k hk) ∧
    buildMessages charEncoding s2x c2x none =
      ([⟨Role.user, MsgContent.text (strCodes "b")⟩,
        ⟨Role.user, MsgContent.text (strCodes "a")⟩], 2) := by
  refine ⟨by decide, by decide, by decide⟩

/-- C3 (amended): for every chain within the configured depth limit whose
total token count (system-prompt reserve included) fits under the limit,
the build returns every non-empty, non-marked node exactly once as its
whole message, root-to-leaf, with the total equal to the system-prompt
reserve plus the sum of encoded text lengths — except that a build in which
every node is filtered out returns ([], 0) instead. -/
theorem under_limit_build_amended (enc : Encoding) (settings : ChatStreamSettings)
    (chain : List CanvasNode)
    (hdepth : settings.maxDepth = 0 ∨ chain.length ≤ settings.maxDepth + 1)
    (hfit : initialTokenCount enc settings chain + chainTokens enc chain ≤
      getTokenLimit settings) :
    buildMessages enc settings chain none =
      (if (chain.filterMap nodeMessage).reverse = [] then ([], 0)
       else
        ((if getSystemPrompt settings chain ≠ [] then
            ⟨Role.system, MsgContent.text (getSystemPrompt settings chain)⟩ ::
              (chain.filterMap nodeMessage).reverse
          else (chain.filterMap nodeMessage).reverse),
         initialTokenCount enc settings chain + chainTokens enc chain)) := by
  have hd : settings.maxDepth = 0 ∨ 0 + chain.length ≤ settings.maxDepth + 1 := by
    rcases hdepth with h | h
    · exact Or.inl h
    · right
      omega
  have hw := walk_all_fit enc settings chain
    ⟨[], initialTokenCount enc settings chain⟩ 0 hd (by simp only []; omega)
  unfold buildMessages
  simp only []
  rw [hw]
  simp only [List.append_nil]
  by_cases hM : (chain.filterMap nodeMessage).reverse = []
  · rw [if_pos hM]
    rw [if_neg (by simp [hM])]
  · rw [if_neg hM]
    rw [if_pos (by simp [hM])]

/-- Witness for C3 (amended): system prompt of two tokens, two two-token
nodes, limit 10. -/
theorem under_limit_build_amended_witness :
    (s3w.maxDepth = 0 ∨ c3w.length ≤ s3w.maxDepth + 1) ∧
    initialTokenCount charEncoding s3w c3w + chainTokens charEncoding c3w ≤
      getTokenLimit s3w ∧
    buildMessages charEncoding s3w c3w none =
      (if (c3w.filterMap nodeMessage).reverse = [] then ([], 0)
       else
        ((if getSystemPrompt s3w c3w ≠ [] then
            ⟨Role.system, MsgContent.text (getSystemPrompt s3w c3w)⟩ ::
              (c3w.filterMap nodeMessage).reverse
          else (c3w.filterMap nodeMessage).reverse),
         initialTokenCount charEncoding s3w c3w + chainTokens charEncoding c3w)) :=
  ⟨by decide, by decide,
    under_limit_build_amended charEncoding s3w c3w (by decide) (by decide)⟩

/-- Counterexample to C3 as stated, in two parts. First: with a depth limit
of 1 and three under-limit nodes, the deepest node is absent and the token
count is 2, not the claimed 3 — so not every qualifying node is returned.
Second: with a nonempty system prompt and an all-whitespace chain, the build
returns ([], 0), not the claimed system-prompt token count of 2. -/
theorem under_limit_build_cex :
    (initialTokenCount charEncoding s3a c2x + chainTokens charEncoding c2x ≤
      getTokenLimit s3a) ∧
    buildMessages charEncoding s3a c2x none ≠
      ((if getSystemPrompt s3a c2x ≠ [] then
          ⟨Role.system, MsgContent.text (getSystemPrompt s3a c2x)⟩ ::
            (c2x.filterMap nodeMessage).reverse
        else (c2x.filterMap nodeMessage).reverse),
       initialTokenCount charEncoding s3a c2x + chainTokens charEncoding c2x) ∧
    (initialTokenCount charEncoding s3b c3b + chainTokens charEncoding c3b ≤
      getTokenLimit s3b) ∧
    buildMessages charEncoding s3b c3b none ≠
      ((if getSystemPrompt s3b c3b ≠ [] then
          ⟨Role.system, MsgContent.text (getSystemPrompt s3b c3b)⟩ ::
            (c3b.filterMap nodeMessage).reverse
        else (c3b.filterMap nodeMessage).reverse),
       initialTokenCount charEncoding s3b c3b + chainTokens charEncoding c3b) := by
  refine ⟨by decide, by decide, by decide, by decide⟩

/-- C8: a build over a chain in which every node is empty/whitespace-only or
system-prompt-marked (the empty chain included, vacuously) returns exactly
([], 0), whatever the action prompt — even though the system prompt cost was
reserved during the walk. -/
theorem empty_build_result (enc : Encoding) (settings : ChatStreamSettings)
    (chain : List CanvasNode) (ap : Option (List Nat))
    (hfil : ∀ n ∈ chain, trimmedText n = [] ∨ isSystemPromptNode (trimmedText n) = true) :
    buildMessages enc settings chain ap = ([], 0) := by
  have hmain : ∀ (ch : List CanvasNode),
      (∀ n ∈ ch, trimmedText n = [] ∨ isSystemPromptNode (trimmedText n) = true) →
      ∀ (st : BuildState) (d : Nat), st.messages = [] →
      (walkChain (visitNode enc settings) st ch d).messages = [] := by
    intro ch
    induction ch with
    | nil =>
      intro _ st d hst
      exact hst
    | cons n rest ih =>
      intro hf st d hst
      by_cases hd : settings.maxDepth ≠ 0 ∧ settings.maxDepth < d
      · rw [walkChain_cons_stop (by rw [visitNode_depth_stop hd])]
        rw [visitNode_depth_stop hd]
        exact hst
      · rcases hf n (by simp) with he | hm
        · rw [walkChain_cons_cont (by rw [visitNode_empty hd he])]
          rw [visitNode_empty hd he]
          exact ih (fun m hmem => hf m (by simp [hmem])) st (d + 1) hst
        · have he := marked_ne_nil hm
          have hi := marked_not_image (trimmedText_trim n) hm
          rw [walkChain_cons_cont (by rw [visitNode_marked hd he hi hm])]
          rw [visitNode_marked hd he hi hm]
          exact ih (fun m hmem => hf m (by simp [hmem])) st (d + 1) hst
  have hwm := hmain chain hfil ⟨[], initialTokenCount enc settings chain⟩ 0 rfl
  unfold buildMessages
  simp only []
  rw [if_neg (by simp [hwm])]

/-- Witness for C8: a whitespace node under a marked node, with a nonempty
system prompt and an action prompt supplied. -/
theorem empty_build_result_witness :
    (∀ n ∈ c8w, trimmedText n = [] ∨ isSystemPromptNode (trimmedText n) = true) ∧
    buildMessages charEncoding s3b c8w (some (strCodes "act")) = ([], 0) :=
  ⟨by decide,
    empty_build_result charEncoding s3b c8w (some (strCodes "act")) (by decide)⟩

/-- The nested-output acceptance, at the fall-through entry point. -/
lemma parseFallback_nested {res m : JVal} {ms citems kept : List JVal}
    (hout : jGet res (strCodes "output") = some (JVal.arr (m :: ms)))
    (hm : truthy m = true)
    (hcm : jGet m (strCodes "content") = some (JVal.arr citems))
    (hkept : filterOutputTexts citems = Except.ok kept) :
    parseFallback res = Except.ok
      (if (joinTexts kept).isEmpty then none
       else some (JVal.str (joinTexts kept))) := by
  unfold parseFallback
  rw [if_pos (by rw [hout]; rfl)]
  rw [hout]
  simp only []
  rw [if_pos hm, hcm]
  simp only []
  rw [if_pos (by rfl)]
  rw [hkept]
  rfl

/-- The output_text fall-through when no output field exists. -/
lemma parseFallback_outputText {res : JVal}
    (hout : jGet res (strCodes "output") = none) :
    parseFallback res = Except.ok (jGet res (strCodes "output_text")) := by
  unfold parseFallback
  rw [if_neg (by rw [hout]; exact Bool.noConfusion)]
  rfl

/-- parseResponse reduces to the fall-through when the content field is not
an array. -/
lemma parseResponse_fallback {res : JVal} (hca : hasContentArr res = false) :
    parseResponse res = parseFallback res := by
  unfold parseResponse
  unfold hasContentArr at hca
  cases hc : jGet res (strCodes "content") with
  | some w =>
    rw [hc] at hca
    cases w with
    | arr items => exact Bool.noConfusion hca
    | null => rfl
    | boolean b => rfl
    | num lit => rfl
    | str s => rfl
    | obj fs => rfl
  | none => rfl

/-- C4: the resolved system prompt is the first chain node (walk order, the
start node included) whose nonempty content is system-prompt-marked, or the
configured default when no such node exists; and no system-prompt-marked
text ever appears as a non-system message in a build's returned list. -/
theorem system_prompt_resolution (settings : ChatStreamSettings)
    (chain : List CanvasNode) :
    getSystemPrompt settings chain =
      (firstMarkedPrompt chain).getD settings.systemPrompt ∧
    (∀ (enc : Encoding) (m : Message) (s : List Nat),
      m ∈ (buildMessages enc settings chain none).1 → m.role ≠ Role.system →
      m.content = MsgContent.text s → isSystemPromptNode s = false) := by
  constructor
  · unfold getSystemPrompt
    rw [spWalk_eq_firstMarked chain 0]
    cases hf : firstMarkedPrompt chain with
    | none => rfl
    | some t =>
      simp only []
      rw [if_neg (firstMarked_ne_nil hf)]
      rfl
  · intro enc m s hmem hrole hcont
    have hwalk := walk_no_marked enc settings chain
      ⟨[], initialTokenCount enc settings chain⟩ 0
      (by
        intro m1 s1 hm1
        exact absurd hm1 (List.not_mem_nil m1))
    unfold buildMessages at hmem
    simp only [] at hmem
    by_cases hne : (walkChain (visitNode enc settings)
        ⟨[], initialTokenCount enc settings chain⟩ chain 0).messages ≠ []
    · rw [if_pos hne] at hmem
      by_cases hsp : getSystemPrompt settings chain ≠ []
      · rw [if_pos hsp] at hmem
        rcases List.mem_cons.mp hmem with h | h
        · subst h
          exact absurd rfl hrole
        · exact hwalk m s h hrole hcont
      · rw [if_neg hsp] at hmem
        exact hwalk m s hmem hrole hcont
    · rw [if_neg hne] at hmem
      exact absurd hmem (List.not_mem_nil m)

/-- Witness for C4: the marked ancestor overrides the default prompt, and
the ordinary message of the same build is not marked. -/
theorem system_prompt_resolution_witness :
    getSystemPrompt s4w c4w = strCodes "SYSTEM PROMPT be nice" ∧
    (⟨Role.user, MsgContent.text (strCodes "hello")⟩ : Message) ∈
      (buildMessages charEncoding s4w c4w none).1 ∧
    isSystemPromptNode (strCodes "hello") = false :=
  ⟨by rw [(system_prompt_resolution s4w c4w).1]; decide,
    by decide,
    (system_prompt_resolution s4w c4w).2 charEncoding
      ⟨Role.user, MsgContent.text (strCodes "hello")⟩ (strCodes "hello")
      (by decide) (by decide) rfl⟩

/-- C5 (amended): the client accepts the three reply shapes — an inline
content array of non-null items (joined output_text texts), a nested
output-message array holding such a content array (undefined when the joined
text is empty), and the flat output_text helper field — and whenever the
parse extracts a value the body matched one of the shapes, so a body
matching none of them yields undefined or a thrown TypeError, never text. -/
theorem response_shapes_amended :
    (∀ (res : JVal) (items : List JVal),
      jGet res (strCodes "content") = some (JVal.arr items) →
      (∀ i ∈ items, isNullV i = false) →
      ∃ kept, filterOutputTexts items = Except.ok kept ∧
        parseResponse res = Except.ok (some (JVal.str (joinTexts kept)))) ∧
    (∀ (res m : JVal) (ms citems : List JVal),
      hasContentArr res = false →
      jGet res (strCodes "output") = some (JVal.arr (m :: ms)) →
      truthy m = true →
      jGet m (strCodes "content") = some (JVal.arr citems) →
      (∀ i ∈ citems, isNullV i = false) →
      ∃ kept, filterOutputTexts citems = Except.ok kept ∧
        parseResponse res = Except.ok
          (if (joinTexts kept).isEmpty then none
           else some (JVal.str (joinTexts kept)))) ∧
    (∀ res : JVal, hasContentArr res = false →
      jGet res (strCodes "output") = none →
      parseResponse res = Except.ok (jGet res (strCodes "output_text"))) ∧
    (∀ res : JVal, matchesShape res = false →
      parseResponse res = Except.ok none ∨ parseResponse res = Except.error ()) := by
  refine ⟨?_, ?_, ?_, ?_⟩
  · intro res items hc hnn
    obtain ⟨kept, hkept⟩ := filterOutputTexts_ok hnn
    refine ⟨kept, hkept, ?_⟩
    unfold parseResponse
    rw [hc]
    simp only []
    rw [hkept]
    rfl
  · intro res m ms citems hca hout hm hcm hnn
    obtain ⟨kept, hkept⟩ := filterOutputTexts_ok hnn
    exact ⟨kept, hkept, by
      rw [parseResponse_fallback hca]
      exact parseFallback_nested hout hm hcm hkept⟩
  · intro res hca hout
    rw [parseResponse_fallback hca]
    exact parseFallback_outputText hout
  · intro res hn
    cases hr : parseResponse res with
    | error u =>
      right
      rfl
    | ok o =>
      cases o with
      | none =>
        left
        rfl
      | some v =>
        have hs := parse_sound hr
        rw [hn] at hs
        exact Bool.noConfusion hs

/-- Witness for C5 (amended): a well-formed first-shape body parses to its
joined text. -/
theorem response_shapes_amended_witness :
    jGet rgood (strCodes "content") = some (JVal.arr ritems) ∧
    (∀ i ∈ ritems, isNullV i = false) ∧
    (∃ kept, filterOutputTexts ritems = Except.ok kept ∧
      parseResponse rgood = Except.ok (some (JVal.str (joinTexts kept)))) :=
  ⟨rfl, by decide,
    (response_shapes_amended).1 rgood ritems rfl (by decide)⟩

/-- Counterexample to C5 as stated: a body whose output message carries a
plain-string content field matches none of the three shapes, yet the parse
throws a TypeError (the string has no filter method) instead of returning
undefined. -/
theorem response_shapes_cex :
    parseResponse rbad = Except.error () ∧ matchesShape rbad = false :=
  ⟨rfl, by decide⟩

/-- Witness for C9 (amended) at a singleton selection equal to the source. -/
theorem selection_move_amended_witness :
    movesSelection (some [5]) 5 = true ↔
      ((some [5] : Option (List Nat)) = some [5] ∨
        selectedNoteIdOf (some [5]) = none) :=
  selection_move_amended (some [5]) 5

end ChatStream
